import Mathlib

/-!
Shallow embedding of the model-evaluation core of the `code-kata` repository:
`MyGridSearchCV` (grid-search notebook) and `MyStackingClassifier`
(stacking-classification notebook), together with the k-fold splitter they
both obtain from `sklearn.model_selection.KFold(n_splits, shuffle=True,
random_state=seed)`.

Numbers that the Python code manipulates as floats (accuracy scores, label
values, out-of-fold predictions) are embedded as rationals `ℚ`.  An estimator
is embedded by its training semantics: `fit` consumes a list of labelled rows
and returns the fitted model, represented by its prediction function
(`predict` of the fitted instance is function application).  Python instance
identity, which the engines rely on (the same clone being refit), is tracked
by an explicit event log recording every clone creation, per-fold fit, and
full-dataset fit together with the integer identity of the instance involved.
-/

namespace CodeKata

/-- Modelled from the spec: `KFold(shuffle=True, random_state=seed)` permutes
the indices with numpy's seeded PRNG, which is external to the repository.
The pseudorandom stream is modelled by a 32-bit linear congruential generator;
every claim below depends only on the permuted list being a permutation of
`List.range n` and on the shuffle being a pure function of `(n, seed)`. -/
def lcgNext (s : Nat) : Nat := (s * 1664525 + 1013904223) % 4294967296

/-- Selection shuffle driven by `lcgNext`: repeatedly draw the element at the
pseudorandom position and continue on the remainder (fuel-bounded). -/
def drawShuffle : Nat → Nat → List Nat → List Nat
  | 0, _, _ => []
  | fuel + 1, s, l =>
    if h : l = [] then []
    else
      let i : Fin l.length := ⟨s % l.length, Nat.mod_lt _ (List.length_pos.mpr h)⟩
      l.get i :: drawShuffle fuel (lcgNext s) (l.eraseIdx i)

/-- Modelled from the spec: the pseudorandom permutation of `[0, n)` used by
the fold splitter ("indices are permuted pseudorandomly"). -/
def permuteIdx (seed n : Nat) : List Nat := drawShuffle n (lcgNext seed) (List.range n)

/-- Fold sizes of `KFold`: each fold has `n / k` rows and the first `n % k`
folds get one extra row (near-equal block-size policy). -/
def foldSizes (n k : Nat) : List Nat :=
  (List.range k).map (fun j => n / k + if j < n % k then 1 else 0)

/-- Cut a list into consecutive chunks of the given sizes. -/
def chunksBy : List Nat → List Nat → List (List Nat)
  | [], _ => []
  | s :: ss, l => l.take s :: chunksBy ss (l.drop s)

/-- Embedding of `KFold(n_splits=k, shuffle=True, random_state=seed).split`
on `n` samples: the permuted indices are cut into `k` consecutive validation
blocks, and each fold's train indices are the complement of its validation
block inside `[0, n)` (in increasing order, as numpy returns them). -/
def kfoldSplit (n k seed : Nat) : List (List Nat × List Nat) :=
  let idx := permuteIdx seed n
  (chunksBy (foldSizes n k) idx).map
    (fun t => (((List.range n).filter (fun r => !(t.contains r))), t))

/-- `split(X, ...)` reads only the sample count of the data it is given. -/
def kfoldSplitData (rows : List α) (k seed : Nat) : List (List Nat × List Nat) :=
  kfoldSplit rows.length k seed

theorem drawShuffle_perm :
    ∀ (fuel s : Nat) (l : List Nat), l.length ≤ fuel →
      List.Perm (drawShuffle fuel s l) l := by
  intro fuel
  induction fuel with
  | zero =>
    intro s l hl
    have : l = [] := List.eq_nil_of_length_eq_zero (Nat.le_zero.mp hl)
    simp [drawShuffle, this]
  | succ fuel ih =>
    intro s l hl
    by_cases h : l = []
    · simp [drawShuffle, h]
    · have hlen : 0 < l.length := List.length_pos.mpr h
      have hi : s % l.length < l.length := Nat.mod_lt _ hlen
      have hrec : List.Perm (drawShuffle fuel (lcgNext s) (l.eraseIdx (s % l.length)))
          (l.eraseIdx (s % l.length)) := by
        apply ih
        have := l.length_eraseIdx_of_lt hi
        omega
      have hsplit : l = l.take (s % l.length) ++ l.get ⟨s % l.length, hi⟩ :: l.drop (s % l.length + 1) := by
        conv_lhs => rw [← List.take_append_drop (s % l.length) l]
        rw [List.drop_eq_getElem_cons hi]
        rfl
      have herase : l.eraseIdx (s % l.length) = l.take (s % l.length) ++ l.drop (s % l.length + 1) :=
        List.eraseIdx_eq_take_drop_succ l _
      have hperm : List.Perm (l.get ⟨s % l.length, hi⟩ :: l.eraseIdx (s % l.length)) l := by
        rw [herase]
        conv_rhs => rw [hsplit]
        exact List.perm_middle.symm
      simp only [drawShuffle, h]
      exact (hrec.cons _).trans hperm

theorem permuteIdx_perm (seed n : Nat) :
    List.Perm (permuteIdx seed n) (List.range n) :=
  drawShuffle_perm n (lcgNext seed) (List.range n) (by simp)

theorem permuteIdx_nodup (seed n : Nat) : (permuteIdx seed n).Nodup :=
  (permuteIdx_perm seed n).nodup_iff.mpr (List.nodup_range n)

theorem mem_permuteIdx (seed n r : Nat) :
    r ∈ permuteIdx seed n ↔ r < n := by
  rw [(permuteIdx_perm seed n).mem_iff, List.mem_range]

theorem sum_map_range_add_ite (m q r : Nat) :
    (((List.range m).map (fun j => q + if j < r then 1 else 0)).sum) = m * q + min m r := by
  induction m with
  | zero => simp
  | succ m ih =>
    rw [List.range_succ, List.map_append, List.sum_append, ih]
    simp only [List.map_cons, List.map_nil, List.sum_cons, List.sum_nil]
    have hq : (m + 1) * q = m * q + q := by ring
    by_cases h : m < r
    · simp only [if_pos h]
      omega
    · simp only [if_neg h]
      omega

theorem foldSizes_sum (n k : Nat) (hk : 0 < k) : (foldSizes n k).sum = n := by
  unfold foldSizes
  rw [sum_map_range_add_ite]
  have h1 : n % k < k := Nat.mod_lt _ hk
  have h2 : min k (n % k) = n % k := by omega
  rw [h2]
  have := Nat.div_add_mod n k
  omega

theorem chunksBy_flatten :
    ∀ (sizes : List Nat) (l : List Nat), sizes.sum = l.length →
      (chunksBy sizes l).flatten = l := by
  intro sizes
  induction sizes with
  | nil =>
    intro l hl
    simp at hl
    simp [chunksBy, List.eq_nil_of_length_eq_zero hl.symm]
  | cons s ss ih =>
    intro l hl
    simp only [List.sum_cons] at hl
    have hs : s ≤ l.length := by omega
    simp only [chunksBy, List.flatten_cons]
    rw [ih (l.drop s) (by simp; omega)]
    exact List.take_append_drop s l

theorem map_snd_pairTrain (n : Nat) :
    ∀ ts : List (List Nat),
      (ts.map (fun t => (((List.range n).filter (fun r => !(t.contains r))), t))).map Prod.snd = ts := by
  intro ts
  induction ts with
  | nil => rfl
  | cons a ts ih => simp only [List.map_cons, ih]

theorem kfoldSplit_map_snd (n k seed : Nat) :
    (kfoldSplit n k seed).map Prod.snd = chunksBy (foldSizes n k) (permuteIdx seed n) := by
  unfold kfoldSplit
  exact map_snd_pairTrain n _

theorem kfoldSplit_tests_flatten (n k seed : Nat) (hk : 0 < k) :
    ((kfoldSplit n k seed).map Prod.snd).flatten = permuteIdx seed n := by
  rw [kfoldSplit_map_snd]
  apply chunksBy_flatten
  rw [foldSizes_sum n k hk, (permuteIdx_perm seed n).length_eq, List.length_range]

/-- Every fold produced by the splitter pairs a validation block with the
complement of that block inside `[0, n)`. -/
theorem kfoldSplit_fold_train (n k seed : Nat) {f : List Nat × List Nat}
    (hf : f ∈ kfoldSplit n k seed) :
    f.1 = (List.range n).filter (fun r => !(f.2.contains r)) := by
  unfold kfoldSplit at hf
  obtain ⟨t, _, rfl⟩ := List.mem_map.mp hf
  rfl

theorem mem_train_iff (n k seed : Nat) {f : List Nat × List Nat}
    (hf : f ∈ kfoldSplit n k seed) (r : Nat) :
    r ∈ f.1 ↔ r < n ∧ r ∉ f.2 := by
  rw [kfoldSplit_fold_train n k seed hf, List.mem_filter, List.mem_range]
  simp [List.contains_iff_exists_mem_beq]

/-- Within one split, a sample index below `n` lies in exactly one fold's
validation block: the fold list decomposes around that fold and the index is
absent from every other validation block. -/
theorem kfoldSplit_cover (n k seed : Nat) (hk : 0 < k) {r : Nat} (hr : r < n) :
    ∃ pre f post, kfoldSplit n k seed = pre ++ f :: post ∧ r ∈ f.2 ∧
      (∀ g ∈ pre, r ∉ g.2) ∧ (∀ g ∈ post, r ∉ g.2) := by
  have hmem : r ∈ ((kfoldSplit n k seed).map Prod.snd).flatten := by
    rw [kfoldSplit_tests_flatten n k seed hk, mem_permuteIdx]
    exact hr
  have hnodup : ((kfoldSplit n k seed).map Prod.snd).flatten.Nodup := by
    rw [kfoldSplit_tests_flatten n k seed hk]
    exact permuteIdx_nodup seed n
  obtain ⟨t, ht, hrt⟩ := List.mem_flatten.mp hmem
  obtain ⟨f, hffolds, rfl⟩ := List.mem_map.mp ht
  obtain ⟨pre, post, hdec⟩ := List.append_of_mem hffolds
  refine ⟨pre, f, post, hdec, hrt, ?_, ?_⟩
  · intro g hg hrg
    have hpair : List.Pairwise List.Disjoint ((kfoldSplit n k seed).map Prod.snd) :=
      (List.nodup_flatten.mp hnodup).2
    rw [hdec, List.map_append, List.map_cons, List.pairwise_append] at hpair
    exact hpair.2.2 g.2 (List.mem_map_of_mem Prod.snd hg) f.2 (by simp) hrg hrt
  · intro g hg hrg
    have hpair : List.Pairwise List.Disjoint ((kfoldSplit n k seed).map Prod.snd) :=
      (List.nodup_flatten.mp hnodup).2
    rw [hdec, List.map_append, List.map_cons, List.pairwise_append] at hpair
    have := (List.pairwise_cons.mp hpair.2.1).1 g.2 (List.mem_map_of_mem Prod.snd hg)
    exact this hrt hrg

theorem kfoldSplit_test_nodup (n k seed : Nat) (hk : 0 < k) {f : List Nat × List Nat}
    (hf : f ∈ kfoldSplit n k seed) : f.2.Nodup := by
  have hnodup : ((kfoldSplit n k seed).map Prod.snd).flatten.Nodup := by
    rw [kfoldSplit_tests_flatten n k seed hk]
    exact permuteIdx_nodup seed n
  exact (List.nodup_flatten.mp hnodup).1 f.2 (List.mem_map_of_mem Prod.snd hf)

theorem kfoldSplit_test_lt (n k seed : Nat) (hk : 0 < k) {f : List Nat × List Nat}
    (hf : f ∈ kfoldSplit n k seed) {r : Nat} (hr : r ∈ f.2) : r < n := by
  have : r ∈ ((kfoldSplit n k seed).map Prod.snd).flatten :=
    List.mem_flatten.mpr ⟨f.2, List.mem_map_of_mem Prod.snd hf, hr⟩
  rw [kfoldSplit_tests_flatten n k seed hk, mem_permuteIdx] at this
  exact this

/-! ### Row selection and positional assignment -/

/-- `rows[idx]` for a numpy index array: the rows at the given indices, in
index order. -/
def subRows (rows : List α) (idx : List Nat) : List α :=
  idx.filterMap (fun i => rows[i]?)

theorem subRows_length {rows : List α} :
    ∀ {idx : List Nat}, (∀ i ∈ idx, i < rows.length) → (subRows rows idx).length = idx.length := by
  intro idx
  induction idx with
  | nil => intro _; rfl
  | cons i idx ih =>
    intro h
    have hi : i < rows.length := h i (by simp)
    have ha : rows[i]? = some rows[i] := List.getElem?_eq_getElem hi
    simp only [subRows, List.filterMap_cons, ha]
    have := ih (fun j hj => h j (by simp [hj]))
    simp only [subRows] at this
    simp [this]

theorem subRows_getElem? {rows : List α} :
    ∀ {idx : List Nat}, (∀ i ∈ idx, i < rows.length) →
      ∀ (j : Nat) (hj : j < idx.length),
        (subRows rows idx)[j]? = rows[idx.get ⟨j, hj⟩]? := by
  intro idx
  induction idx with
  | nil => intro _ j hj; simp at hj
  | cons i idx ih =>
    intro h j hj
    have hi : i < rows.length := h i (by simp)
    have ha : rows[i]? = some rows[i] := List.getElem?_eq_getElem hi
    simp only [subRows, List.filterMap_cons, ha]
    cases j with
    | zero => simp [ha]
    | succ j =>
      have hj' : j < idx.length := by simpa using hj
      have := ih (fun m hm => h m (by simp [hm])) j hj'
      simp only [subRows] at this
      simpa using this

/-- `v[ps] = xs` for a numpy fancy assignment: write each value at the
corresponding position. -/
def writeAt : List ℚ → List Nat → List ℚ → List ℚ
  | v, [], _ => v
  | v, _ :: _, [] => v
  | v, p :: ps, x :: xs => writeAt (v.set p x) ps xs

theorem writeAt_nil (v xs : List ℚ) : writeAt v [] xs = v := by
  cases xs <;> rfl

theorem writeAt_cons_nil (v : List ℚ) (p : Nat) (ps : List Nat) :
    writeAt v (p :: ps) [] = v := rfl

theorem writeAt_cons_cons (v : List ℚ) (p : Nat) (ps : List Nat) (x : ℚ) (xs : List ℚ) :
    writeAt v (p :: ps) (x :: xs) = writeAt (v.set p x) ps xs := rfl

theorem writeAt_length : ∀ (ps : List Nat) (v : List ℚ) (xs : List ℚ),
    (writeAt v ps xs).length = v.length := by
  intro ps
  induction ps with
  | nil => intro v xs; rw [writeAt_nil]
  | cons p ps ih =>
    intro v xs
    cases xs with
    | nil => rfl
    | cons x xs => rw [writeAt_cons_cons, ih, List.length_set]

theorem writeAt_getElem?_not_mem : ∀ (ps : List Nat) (v : List ℚ) (xs : List ℚ) {r : Nat},
    r ∉ ps → (writeAt v ps xs)[r]? = v[r]? := by
  intro ps
  induction ps with
  | nil => intro v xs r _; rw [writeAt_nil]
  | cons p ps ih =>
    intro v xs r hr
    cases xs with
    | nil => rfl
    | cons x xs =>
      rw [writeAt_cons_cons, ih (v.set p x) xs (fun h => hr (by simp [h]))]
      exact List.getElem?_set_ne (fun h => hr (by simp [h]))

theorem writeAt_getElem?_at : ∀ (ps : List Nat) (v : List ℚ) (xs : List ℚ),
    ps.Nodup → xs.length = ps.length →
    ∀ (j : Nat) (hj : j < ps.length), ps.get ⟨j, hj⟩ < v.length →
      (writeAt v ps xs)[ps.get ⟨j, hj⟩]? = xs[j]? := by
  intro ps
  induction ps with
  | nil => intro v xs _ _ j hj; simp at hj
  | cons p ps ih =>
    intro v xs hnd hlen j hj hplt
    cases xs with
    | nil => simp at hlen
    | cons x xs =>
      cases j with
      | zero =>
        simp only [List.get] at hplt ⊢
        rw [writeAt_cons_cons, writeAt_getElem?_not_mem ps _ xs (List.nodup_cons.mp hnd).1]
        simp [List.getElem?_set_eq_of_lt x hplt]
      | succ j =>
        have hj' : j < ps.length := by simpa using hj
        rw [writeAt_cons_cons]
        have := ih (v.set p x) xs (List.nodup_cons.mp hnd).2 (by simpa using hlen) j hj'
          (by simpa using hplt)
        simpa using this

/-! ### Estimators, errors, and the instrumentation log -/

/-- The estimator capability as both engines consume it.  A row is a feature
value of type `α` paired with a label in `ℚ`; `fit` trains on a list of rows
and returns the fitted model, represented by its prediction function (calling
`predict` on the fitted instance is function application). -/
structure Est (α : Type) where
  fit : List (α × ℚ) → (α → ℚ)

/-- Error taxonomy of the spec.  `MyGridSearchCV` raises through
`KFold` (`ValueError`) for a malformed fold count and raises `ValueError`
from `predict`/`score` before `fit`; `MyStackingClassifier` raises a Python
`TypeError`/`NotFittedError` on predict-before-fit.  Both are mapped to the
spec's two categories. -/
inductive Err where
  | invalidConfiguration
  | notFitted
deriving DecidableEq, Repr

/-- One entry of the instrumentation log: which estimator instance (by
integer identity) was cloned, fit on a fold's train indices, fit on the full
dataset, or stored as the running best. -/
inductive Ev where
  | cloned (id : Nat)
  | fitFold (id : Nat) (train : List Nat)
  | fitFull (id : Nat)
  | bestSet (id : Nat)
deriving DecidableEq, Repr

def isClonedEv : Ev → Bool
  | .cloned _ => true
  | _ => false

def isFullFitEv : Ev → Bool
  | .fitFull _ => true
  | _ => false

def isBestSetEv : Ev → Bool
  | .bestSet _ => true
  | _ => false

/-- The train-index lists of the per-fold fits performed by instance `i`. -/
def foldFitsOf (i : Nat) (log : List Ev) : List (List Nat) :=
  log.filterMap (fun e =>
    match e with
    | .fitFold j tr => if j = i then some tr else none
    | _ => none)

/-- `sklearn.metrics.accuracy_score`: the fraction of positions where the
true and predicted labels agree (its arguments have equal length at every
call site in the engines). -/
def accuracy (yTrue yPred : List ℚ) : ℚ :=
  if yTrue.length = 0 then 0
  else ((yTrue.zip yPred).countP (fun p => decide (p.1 = p.2)) : ℚ) / (yTrue.length : ℚ)

/-- `np.mean` of a list of scores. -/
def listMean (xs : List ℚ) : ℚ := xs.sum / (xs.length : ℚ)

/-- `itertools.product` over the grid's value sequences, in its order: the
first sequence varies slowest, the last-declared sequence fastest. -/
def cartProd : List (List V) → List (List V)
  | [] => [[]]
  | vs :: rest => vs.flatMap (fun v => (cartProd rest).map (v :: ·))

/-! ### `MyGridSearchCV` -/

/-- The fitted-state fields of `MyGridSearchCV`, as initialized by
`__init__`: `best_estimator_ = None`, `best_params_ = None`,
`best_score_ = float("-inf")` (embedded as `none`).  The stored best
estimator carries its instance identity together with the fitted model. -/
structure GridState (α V : Type) where
  best_estimator_ : Option (Nat × (α → ℚ))
  best_params_ : Option (List (String × V))
  best_score_ : Option ℚ

def GridState.init : GridState α V := ⟨none, none, none⟩

/-- `self.best_score_ < avg_score` where the initial best is `float("-inf")`. -/
def bestLt : Option ℚ → ℚ → Bool
  | none, _ => true
  | some b, q => decide (b < q)

/-- One fold's accuracy for a configured estimator: fit on the fold's train
rows, predict the fold's validation rows, score against the true labels. -/
def foldScore (e : Est α) (rows : List (α × ℚ)) (f : List Nat × List Nat) : ℚ :=
  let m := e.fit (subRows rows f.1)
  accuracy ((subRows rows f.2).map Prod.snd) ((subRows rows f.2).map (fun p => m p.1))

/-- The per-fold scores of one candidate (`scores` in the source loop). -/
def candScores (e : Est α) (rows : List (α × ℚ)) (folds : List (List Nat × List Nat)) : List ℚ :=
  folds.map (foldScore e rows)

/-- A candidate's mean cross-validated score, computed independently of every
other candidate (`avg_score = np.mean(scores)`). -/
def comboScore (proto : List (String × V) → Est α) (keys : List String)
    (rows : List (α × ℚ)) (folds : List (List Nat × List Nat)) (c : List V) : ℚ :=
  listMean (candScores (proto (keys.zip c)) rows folds)

/-- The body of the candidate loop of `MyGridSearchCV.fit` for one
enumerated combination: clone and configure the prototype, score it on every
fold, and update the running best when its mean score strictly exceeds the
stored one (update refits the same clone on the whole dataset). -/
def gridStep (proto : List (String × V) → Est α) (keys : List String)
    (rows : List (α × ℚ)) (folds : List (List Nat × List Nat))
    (acc : GridState α V × List Ev) (ci : Nat × List V) : GridState α V × List Ev :=
  let params := keys.zip ci.2
  let e := proto params
  let avg := listMean (candScores e rows folds)
  let evs := Ev.cloned ci.1 :: folds.map (fun f => Ev.fitFold ci.1 f.1)
  if bestLt acc.1.best_score_ avg then
    (⟨some (ci.1, e.fit rows), some params, some avg⟩,
      acc.2 ++ evs ++ [Ev.bestSet ci.1, Ev.fitFull ci.1])
  else (acc.1, acc.2 ++ evs)

/-- `MyGridSearchCV.fit` with an integer `cv`: enumerate the Cartesian
product of the grid values, construct `KFold(cv, shuffle=True,
random_state=42)` — whose constructor rejects `k < 2` and whose `split`
(first called inside the first candidate's loop, after that candidate was
cloned) rejects `k > n` — then run the candidate loop.  Returns the error,
the state after the call, and the instrumentation log. -/
def gridFit (s : GridState α V) (proto : List (String × V) → Est α)
    (grid : List (String × List V)) (rows : List (α × ℚ)) (k seed : Nat) :
    Option Err × GridState α V × List Ev :=
  let keys := grid.map Prod.fst
  let combos := cartProd (grid.map Prod.snd)
  if k < 2 then (some Err.invalidConfiguration, s, [])
  else if combos.isEmpty then (none, s, [])
  else if rows.length < k then (some Err.invalidConfiguration, s, [Ev.cloned 0])
  else
    let folds := kfoldSplitData rows k seed
    let r := combos.enum.foldl (gridStep proto keys rows folds) (s, [])
    (none, r.1, r.2)

/-- `MyGridSearchCV.predict`: `ValueError` before fit, otherwise delegate to
the stored best estimator. -/
def gridPredict (s : GridState α V) (xs : List α) : Except Err (List ℚ) :=
  match s.best_estimator_ with
  | none => .error .notFitted
  | some be => .ok (xs.map be.2)

/-- `MyGridSearchCV.score`: `ValueError` before fit, otherwise the accuracy
of the stored best estimator on the given data. -/
def gridScore (s : GridState α V) (xs : List α) (ys : List ℚ) : Except Err ℚ :=
  match s.best_estimator_ with
  | none => .error .notFitted
  | some be => .ok (accuracy ys (xs.map be.2))

/-! ### `MyStackingClassifier` -/

/-- The body of the fold loop in `MyStackingClassifier.fit`: fit the (single,
reused) base estimator on the fold's train rows and write its predictions on
the fold's validation rows into the out-of-fold vector at the validation
positions. -/
def oofStep (e : Est α) (rows : List (α × ℚ)) (v : List ℚ) (f : List Nat × List Nat) :
    List ℚ :=
  let m := e.fit (subRows rows f.1)
  writeAt v f.2 ((subRows rows f.2).map (fun p => m p.1))

/-- The out-of-fold prediction column of one base estimator: starting from
`np.zeros(n_samples)`, run the fold loop over all folds. -/
def oofCol (e : Est α) (rows : List (α × ℚ)) (folds : List (List Nat × List Nat)) : List ℚ :=
  folds.foldl (oofStep e rows) (List.replicate rows.length 0)

/-- The out-of-fold columns of all base estimators — the meta-feature matrix
of a stacking fit, stored column-wise (`meta_features[:, i] = oof_preds`). -/
def stackMetaCols (ests : List (String × Est α)) (rows : List (α × ℚ))
    (folds : List (List Nat × List Nat)) : List (List ℚ) :=
  ests.map (fun e => oofCol e.2 rows folds)

/-- Row `r` of an `n × m` matrix stored as `m` columns of length `n`. -/
def metaRowsOf (cols : List (List ℚ)) (n : Nat) : List (List ℚ) :=
  (List.range n).map (fun r => cols.map (fun c => c.getD r 0))

/-- The fitted-state fields of `MyStackingClassifier`: `base_estimators_`
and `final_estimator_`, both `None` after `__init__`.  Once `fit` assigns
them they hold clones, each either still unfit (`none`) or fitted (its
prediction function). -/
structure StackState (α : Type) where
  base_estimators_ : Option (List (Option (α → ℚ)))
  final_estimator_ : Option (Option (List ℚ → ℚ))

def StackState.init : StackState α := ⟨none, none⟩

/-- `MyStackingClassifier.fit`: deepcopy every base estimator and the final
estimator into the instance fields *before* any validation, then construct
`KFold` (rejects `k < 2`); the per-estimator loop calls `kf.split`, which
rejects `k > n` — but only if there is at least one base estimator.  On
success each base estimator produces its out-of-fold column, is refit on the
whole dataset, and the meta-estimator is fit on (meta-features, labels). -/
def stackingFit (ests : List (String × Est α)) (meta : Est (List ℚ))
    (rows : List (α × ℚ)) (k seed : Nat) : Option Err × StackState α × List Ev :=
  let cloneEvs := (List.range ests.length).map Ev.cloned
  let s1 : StackState α := ⟨some (ests.map (fun _ => none)), some none⟩
  if k < 2 then (some Err.invalidConfiguration, s1, cloneEvs)
  else if ests.isEmpty then
    let mf := meta.fit ((metaRowsOf [] rows.length).zip (rows.map Prod.snd))
    (none, ⟨some [], some (some mf)⟩, cloneEvs)
  else if rows.length < k then (some Err.invalidConfiguration, s1, cloneEvs)
  else
    let folds := kfoldSplitData rows k seed
    let cols := stackMetaCols ests rows folds
    let fitted := ests.map (fun e => some (e.2.fit rows))
    let mf := meta.fit ((metaRowsOf cols rows.length).zip (rows.map Prod.snd))
    let log := cloneEvs ++ (List.range ests.length).flatMap
      (fun i => folds.map (fun f => Ev.fitFold i f.1) ++ [Ev.fitFull i])
    (none, ⟨some fitted, some (some mf)⟩, log)

/-! ### Behaviour of the candidate loop of `MyGridSearchCV.fit` -/

/-- The state stored when the running best is updated for enumerated
candidate `ci`: the candidate's clone refit on the whole dataset, its
parameters, and its mean cross-validated score. -/
def bestStateOf (proto : List (String × V) → Est α) (keys : List String)
    (rows : List (α × ℚ)) (folds : List (List Nat × List Nat)) (ci : Nat × List V) :
    GridState α V :=
  ⟨some (ci.1, (proto (keys.zip ci.2)).fit rows), some (keys.zip ci.2),
    some (comboScore proto keys rows folds ci.2)⟩

theorem gridStep_state (proto : List (String × V) → Est α) (keys : List String)
    (rows : List (α × ℚ)) (folds : List (List Nat × List Nat))
    (acc : GridState α V × List Ev) (ci : Nat × List V) :
    (gridStep proto keys rows folds acc ci).1 =
      if bestLt acc.1.best_score_ (comboScore proto keys rows folds ci.2) then
        bestStateOf proto keys rows folds ci
      else acc.1 := by
  simp only [gridStep, bestStateOf, comboScore]
  split <;> rfl

theorem gridStep_log (proto : List (String × V) → Est α) (keys : List String)
    (rows : List (α × ℚ)) (folds : List (List Nat × List Nat))
    (acc : GridState α V × List Ev) (ci : Nat × List V) :
    (gridStep proto keys rows folds acc ci).2 =
      acc.2 ++ (Ev.cloned ci.1 :: folds.map (fun f => Ev.fitFold ci.1 f.1) ++
        (if bestLt acc.1.best_score_ (comboScore proto keys rows folds ci.2) then
          [Ev.bestSet ci.1, Ev.fitFull ci.1] else [])) := by
  simp only [gridStep, comboScore]
  split
  · simp
  · simp

/-- After the loop, the stored best score dominates the starting one and the
mean cross-validated score of every processed candidate. -/
theorem grid_foldl_ge (proto : List (String × V) → Est α) (keys : List String)
    (rows : List (α × ℚ)) (folds : List (List Nat × List Nat)) :
    ∀ (l : List (Nat × List V)) (acc : GridState α V × List Ev),
      (∀ x, acc.1.best_score_ = some x →
        ∃ y, (l.foldl (gridStep proto keys rows folds) acc).1.best_score_ = some y ∧ x ≤ y) ∧
      (∀ ci ∈ l, ∃ y,
        (l.foldl (gridStep proto keys rows folds) acc).1.best_score_ = some y ∧
          comboScore proto keys rows folds ci.2 ≤ y) := by
  intro l
  induction l with
  | nil =>
    intro acc
    exact ⟨fun x hx => ⟨x, hx, le_refl x⟩, fun ci hci => absurd hci (by simp)⟩
  | cons c cs ih =>
    intro acc
    rw [List.foldl_cons]
    have hstate := gridStep_state proto keys rows folds acc c
    by_cases hup : bestLt acc.1.best_score_ (comboScore proto keys rows folds c.2) = true
    · rw [if_pos hup] at hstate
      have hbest : (gridStep proto keys rows folds acc c).1.best_score_ =
          some (comboScore proto keys rows folds c.2) := by rw [hstate]; rfl
      constructor
      · intro x hx
        have hlt : x < comboScore proto keys rows folds c.2 := by
          rw [hx] at hup; exact of_decide_eq_true hup
        obtain ⟨y, hy, hle⟩ := (ih (gridStep proto keys rows folds acc c)).1
          (comboScore proto keys rows folds c.2) hbest
        exact ⟨y, hy, le_of_lt (lt_of_lt_of_le hlt hle)⟩
      · intro ci hci
        rcases List.mem_cons.mp hci with heq | hmem
        · rw [heq]
          exact (ih (gridStep proto keys rows folds acc c)).1 _ hbest
        · exact (ih (gridStep proto keys rows folds acc c)).2 ci hmem
    · rw [if_neg hup] at hstate
      have hne : bestLt acc.1.best_score_ (comboScore proto keys rows folds c.2) = false :=
        Bool.not_eq_true _ ▸ eq_false_of_ne_true hup
      obtain ⟨b, hb⟩ : ∃ b, acc.1.best_score_ = some b := by
        cases hsc : acc.1.best_score_ with
        | none => rw [hsc] at hne; simp [bestLt] at hne
        | some b => exact ⟨b, rfl⟩
      have hble : comboScore proto keys rows folds c.2 ≤ b := by
        rw [hb] at hne
        simpa [bestLt] using of_decide_eq_false hne
      have hbest : (gridStep proto keys rows folds acc c).1.best_score_ = some b := by
        rw [hstate, hb]
      constructor
      · intro x hx
        rw [hb] at hx
        have hxb : x = b := by injection hx.symm
        rw [hxb]
        exact (ih (gridStep proto keys rows folds acc c)).1 b hbest
      · intro ci hci
        rcases List.mem_cons.mp hci with heq | hmem
        · obtain ⟨y, hy, hle⟩ := (ih (gridStep proto keys rows folds acc c)).1 b hbest
          refine ⟨y, hy, ?_⟩
          rw [heq]
          exact le_trans hble hle
        · exact (ih (gridStep proto keys rows folds acc c)).2 ci hmem

/-- If no processed candidate's mean score strictly exceeds the carried-over
best score, the loop leaves all three fitted-state fields untouched. -/
theorem grid_foldl_stale (proto : List (String × V) → Est α) (keys : List String)
    (rows : List (α × ℚ)) (folds : List (List Nat × List Nat)) :
    ∀ (l : List (Nat × List V)) (acc : GridState α V × List Ev),
      (∀ ci ∈ l, bestLt acc.1.best_score_ (comboScore proto keys rows folds ci.2) = false) →
      (l.foldl (gridStep proto keys rows folds) acc).1 = acc.1 := by
  intro l
  induction l with
  | nil => intro acc _; rfl
  | cons c cs ih =>
    intro acc h
    rw [List.foldl_cons]
    have hstate := gridStep_state proto keys rows folds acc c
    rw [if_neg (by rw [h c (by simp)]; exact Bool.false_ne_true)] at hstate
    have := ih (gridStep proto keys rows folds acc c)
      (by intro ci hci; rw [hstate]; exact h ci (by simp [hci]))
    rw [this, hstate]

/-- The invariant of the candidate loop once a best candidate is stored:
the final state is the best-state of the first enumerated candidate that
attains the maximum mean score (strict-greater-than update rule). -/
theorem grid_foldl_argmax (proto : List (String × V) → Est α) (keys : List String)
    (rows : List (α × ℚ)) (folds : List (List Nat × List Nat)) :
    ∀ (cs : List (List V)) (st : Nat) (log : List Ev) (i : Nat) (ci : List V), i < st →
      ∃ j cj, ((j = i ∧ cj = ci) ∨ (j, cj) ∈ List.enumFrom st cs) ∧
        ((List.enumFrom st cs).foldl (gridStep proto keys rows folds)
            (bestStateOf proto keys rows folds (i, ci), log)).1 =
          bestStateOf proto keys rows folds (j, cj) ∧
        comboScore proto keys rows folds ci ≤ comboScore proto keys rows folds cj ∧
        (j ≠ i → comboScore proto keys rows folds ci < comboScore proto keys rows folds cj) ∧
        (∀ x ∈ List.enumFrom st cs,
          comboScore proto keys rows folds x.2 ≤ comboScore proto keys rows folds cj ∧
            (x.1 < j → comboScore proto keys rows folds x.2 <
              comboScore proto keys rows folds cj)) := by
  intro cs
  induction cs with
  | nil =>
    intro st log i ci _
    refine ⟨i, ci, Or.inl ⟨rfl, rfl⟩, rfl, le_refl _, ?_, ?_⟩
    · intro h; exact absurd rfl h
    · intro x hx; simp [List.enumFrom] at hx
  | cons c cs ih =>
    intro st log i ci hist
    have henum : List.enumFrom st (c :: cs) = (st, c) :: List.enumFrom (st + 1) cs := rfl
    rw [henum, List.foldl_cons]
    have hstate := gridStep_state proto keys rows folds
      (bestStateOf proto keys rows folds (i, ci), log) (st, c)
    dsimp only at hstate
    rw [show (bestStateOf proto keys rows folds (i, ci)).best_score_ =
        some (comboScore proto keys rows folds ci) from rfl] at hstate
    by_cases hup : bestLt (some (comboScore proto keys rows folds ci))
        (comboScore proto keys rows folds c) = true
    · have hlt : comboScore proto keys rows folds ci < comboScore proto keys rows folds c :=
        of_decide_eq_true hup
      rw [if_pos hup] at hstate
      have hstep : gridStep proto keys rows folds
          (bestStateOf proto keys rows folds (i, ci), log) (st, c) =
          (bestStateOf proto keys rows folds (st, c),
            (gridStep proto keys rows folds
              (bestStateOf proto keys rows folds (i, ci), log) (st, c)).2) := by
        exact Prod.ext hstate rfl
      rw [hstep]
      obtain ⟨j, cj, hmem, hres, hle, hne, hall⟩ := ih (st + 1) _ st c (Nat.lt_succ_self st)
      refine ⟨j, cj, ?_, hres, ?_, ?_, ?_⟩
      · rcases hmem with ⟨rfl, rfl⟩ | hm
        · exact Or.inr (List.mem_cons_self _ _)
        · exact Or.inr (List.mem_cons_of_mem _ hm)
      · exact le_of_lt (lt_of_lt_of_le hlt hle)
      · intro _; exact lt_of_lt_of_le hlt hle
      · intro x hx
        rcases List.mem_cons.mp hx with heq | hm
        · rw [heq]
          exact ⟨hle, fun hj => hne (by omega)⟩
        · exact hall x hm
    · have hge : comboScore proto keys rows folds c ≤ comboScore proto keys rows folds ci := by
        have := eq_false_of_ne_true hup
        simpa [bestLt] using of_decide_eq_false this
      rw [if_neg hup] at hstate
      have hstep : gridStep proto keys rows folds
          (bestStateOf proto keys rows folds (i, ci), log) (st, c) =
          (bestStateOf proto keys rows folds (i, ci),
            (gridStep proto keys rows folds
              (bestStateOf proto keys rows folds (i, ci), log) (st, c)).2) := by
        exact Prod.ext hstate rfl
      rw [hstep]
      obtain ⟨j, cj, hmem, hres, hle, hne, hall⟩ := ih (st + 1) _ i ci (by omega)
      refine ⟨j, cj, ?_, hres, hle, hne, ?_⟩
      · rcases hmem with h | hm
        · exact Or.inl h
        · exact Or.inr (List.mem_cons_of_mem _ hm)
      · intro x hx
        rcases List.mem_cons.mp hx with heq | hm
        · rw [heq]
          refine ⟨le_trans hge hle, ?_⟩
          intro hj
          have hji : j ≠ i := by
            rcases hmem with ⟨rfl, _⟩ | hmm
            · omega
            · have := (List.mk_mem_enumFrom_iff_le_and_getElem?_sub.mp hmm).1
              omega
          exact lt_of_le_of_lt hge (hne hji)
        · exact hall x hm

def seqOpt : List (Option β) → Option (List β)
  | [] => some []
  | none :: _ => none
  | some b :: rest => (seqOpt rest).map (b :: ·)

/-- `MyStackingClassifier.predict`: iterating `base_estimators_` fails when
the field is still `None` (Python `TypeError`) or when a stored clone is
unfit (`NotFittedError`); otherwise stack the base predictions column-wise
and delegate to the final estimator. -/
def stackPredict (s : StackState α) (xs : List α) : Except Err (List ℚ) :=
  match s.base_estimators_ with
  | none => .error .notFitted
  | some bases =>
    match seqOpt bases with
    | none => .error .notFitted
    | some fs =>
      match s.final_estimator_ with
      | some (some mf) => .ok ((metaRowsOf (fs.map (fun f => xs.map f)) xs.length).map mf)
      | _ => .error .notFitted

/-! ### Characterisation of the out-of-fold column -/

theorem oofFoldl_length (e : Est α) (rows : List (α × ℚ)) :
    ∀ (folds : List (List Nat × List Nat)) (v : List ℚ),
      (folds.foldl (oofStep e rows) v).length = v.length := by
  intro folds
  induction folds with
  | nil => intro v; rfl
  | cons f folds ih =>
    intro v
    rw [List.foldl_cons, ih, oofStep, writeAt_length]

theorem oofFoldl_not_mem (e : Est α) (rows : List (α × ℚ)) {r : Nat} :
    ∀ (folds : List (List Nat × List Nat)) (v : List ℚ),
      (∀ f ∈ folds, r ∉ f.2) → (folds.foldl (oofStep e rows) v)[r]? = v[r]? := by
  intro folds
  induction folds with
  | nil => intro v _; rfl
  | cons f folds ih =>
    intro v h
    rw [List.foldl_cons, ih _ (fun g hg => h g (by simp [hg]))]
    exact writeAt_getElem?_not_mem f.2 v _ (h f (by simp))

theorem oofStep_at (e : Est α) (rows : List (α × ℚ)) (v : List ℚ)
    (f : List Nat × List Nat) (r : Nat)
    (hnd : f.2.Nodup) (hlt : ∀ x ∈ f.2, x < rows.length)
    (hrv : v.length = rows.length) (hrf : r ∈ f.2) (hrn : r < rows.length) :
    (oofStep e rows v f)[r]? =
      some (e.fit (subRows rows f.1) (rows.get ⟨r, hrn⟩).1) := by
  obtain ⟨j, hj⟩ := List.mem_iff_get.mp hrf
  have hsub := subRows_getElem? hlt j.1 j.2
  have hsublen : (subRows rows f.2).length = f.2.length := subRows_length hlt
  have hvals : ((subRows rows f.2).map (fun p => e.fit (subRows rows f.1) p.1)).length
      = f.2.length := by rw [List.length_map, hsublen]
  have hwr := writeAt_getElem?_at f.2 v
    ((subRows rows f.2).map (fun p => e.fit (subRows rows f.1) p.1)) hnd hvals j.1 j.2
    (by rw [hj, hrv]; exact hrn)
  rw [hj] at hwr
  rw [oofStep]
  rw [hwr]
  rw [List.getElem?_map, hsub, hj, List.getElem?_eq_getElem hrn]
  rfl

/-! ### Log structure lemmas -/

theorem foldFitsOf_append (i : Nat) (a b : List Ev) :
    foldFitsOf i (a ++ b) = foldFitsOf i a ++ foldFitsOf i b :=
  List.filterMap_append a b _

theorem foldFitsOf_cloned (i j : Nat) (rest : List Ev) :
    foldFitsOf i (Ev.cloned j :: rest) = foldFitsOf i rest := rfl

theorem foldFitsOf_fitFold_map (i j : Nat) (folds : List (List Nat × List Nat)) :
    foldFitsOf i (folds.map (fun f => Ev.fitFold j f.1)) =
      if j = i then folds.map Prod.fst else [] := by
  induction folds with
  | nil => by_cases h : j = i <;> simp [foldFitsOf, h]
  | cons f folds ih =>
    by_cases h : j = i
    · simp only [if_pos h] at ih ⊢
      simp only [List.map_cons, foldFitsOf, List.filterMap_cons, if_pos h]
      simpa [foldFitsOf] using ih
    · simp only [if_neg h] at ih ⊢
      simp only [List.map_cons, foldFitsOf, List.filterMap_cons, if_neg h]
      simpa [foldFitsOf] using ih

theorem foldFitsOf_tail_ite (i j : Nat) (b : Bool) :
    foldFitsOf i (if b then [Ev.bestSet j, Ev.fitFull j] else []) = [] := by
  cases b <;> rfl

theorem countP_fitFold_map (p : Ev → Bool)
    (hp : ∀ j tr, p (Ev.fitFold j tr) = false) (j : Nat)
    (folds : List (List Nat × List Nat)) :
    (folds.map (fun f => Ev.fitFold j f.1)).countP p = 0 := by
  induction folds with
  | nil => rfl
  | cons f folds ih => simp [List.countP_cons, hp, ih]

/-- Each loop iteration of `MyGridSearchCV.fit` clones exactly once. -/
theorem grid_foldl_cloned_count (proto : List (String × V) → Est α) (keys : List String)
    (rows : List (α × ℚ)) (folds : List (List Nat × List Nat)) :
    ∀ (l : List (Nat × List V)) (acc : GridState α V × List Ev),
      (l.foldl (gridStep proto keys rows folds) acc).2.countP isClonedEv =
        acc.2.countP isClonedEv + l.length := by
  intro l
  induction l with
  | nil => intro acc; rfl
  | cons c cs ih =>
    intro acc
    rw [List.foldl_cons, ih]
    have hlog := gridStep_log proto keys rows folds acc c
    rw [hlog, List.countP_append, List.countP_append, List.countP_cons,
      countP_fitFold_map isClonedEv (fun _ _ => rfl) c.1 folds]
    have hite : (if bestLt acc.1.best_score_ (comboScore proto keys rows folds c.2) then
        [Ev.bestSet c.1, Ev.fitFull c.1] else []).countP isClonedEv = 0 := by
      split <;> rfl
    rw [hite]
    simp [isClonedEv, List.length_cons]
    omega

/-- A full-dataset fit happens in an iteration exactly when the running best
is updated in that iteration. -/
theorem grid_foldl_full_eq_bestSet (proto : List (String × V) → Est α) (keys : List String)
    (rows : List (α × ℚ)) (folds : List (List Nat × List Nat)) :
    ∀ (l : List (Nat × List V)) (acc : GridState α V × List Ev),
      acc.2.countP isFullFitEv = acc.2.countP isBestSetEv →
      (l.foldl (gridStep proto keys rows folds) acc).2.countP isFullFitEv =
        (l.foldl (gridStep proto keys rows folds) acc).2.countP isBestSetEv := by
  intro l
  induction l with
  | nil => intro acc h; exact h
  | cons c cs ih =>
    intro acc h
    rw [List.foldl_cons]
    apply ih
    have hlog := gridStep_log proto keys rows folds acc c
    rw [hlog]
    rw [List.countP_append, List.countP_append, List.countP_cons,
      countP_fitFold_map isFullFitEv (fun _ _ => rfl) c.1 folds]
    conv_rhs => rw [List.countP_append, List.countP_append, List.countP_cons,
      countP_fitFold_map isBestSetEv (fun _ _ => rfl) c.1 folds]
    have hful : (if bestLt acc.1.best_score_ (comboScore proto keys rows folds c.2) then
        [Ev.bestSet c.1, Ev.fitFull c.1] else []).countP isFullFitEv =
        (if bestLt acc.1.best_score_ (comboScore proto keys rows folds c.2) then
        [Ev.bestSet c.1, Ev.fitFull c.1] else []).countP isBestSetEv := by
      split <;> rfl
    rw [hful, h]
    simp [isFullFitEv, isBestSetEv]

/-- Candidates enumerated later never touch the fold-fit record of an
earlier candidate id. -/
theorem grid_foldl_foldFits_lt (proto : List (String × V) → Est α) (keys : List String)
    (rows : List (α × ℚ)) (folds : List (List Nat × List Nat)) :
    ∀ (cs : List (List V)) (st : Nat) (acc : GridState α V × List Ev) (i : Nat), i < st →
      foldFitsOf i ((List.enumFrom st cs).foldl (gridStep proto keys rows folds) acc).2 =
        foldFitsOf i acc.2 := by
  intro cs
  induction cs with
  | nil => intro st acc i _; rfl
  | cons c cs ih =>
    intro st acc i hi
    have henum : List.enumFrom st (c :: cs) = (st, c) :: List.enumFrom (st + 1) cs := rfl
    rw [henum, List.foldl_cons, ih (st + 1) _ i (by omega)]
    have hlog := gridStep_log proto keys rows folds acc (st, c)
    rw [hlog, foldFitsOf_append, foldFitsOf_append, foldFitsOf_cloned,
      foldFitsOf_fitFold_map, foldFitsOf_tail_ite, if_neg (by omega : ¬ st = i)]
    simp

/-- The fold fits recorded for candidate `i` are exactly one fit per fold, on
that fold's train indices, all by the single clone `i` created for that
candidate. -/
theorem grid_foldl_foldFits (proto : List (String × V) → Est α) (keys : List String)
    (rows : List (α × ℚ)) (folds : List (List Nat × List Nat)) :
    ∀ (cs : List (List V)) (st : Nat) (acc : GridState α V × List Ev) (i : Nat),
      st ≤ i → i < st + cs.length →
      foldFitsOf i ((List.enumFrom st cs).foldl (gridStep proto keys rows folds) acc).2 =
        foldFitsOf i acc.2 ++ folds.map Prod.fst := by
  intro cs
  induction cs with
  | nil => intro st acc i h1 h2; simp at h2; omega
  | cons c cs ih =>
    intro st acc i h1 h2
    have henum : List.enumFrom st (c :: cs) = (st, c) :: List.enumFrom (st + 1) cs := rfl
    rw [henum, List.foldl_cons]
    have hlog := gridStep_log proto keys rows folds acc (st, c)
    by_cases heq : i = st
    · subst heq
      rw [grid_foldl_foldFits_lt proto keys rows folds cs (i + 1) _ i (by omega)]
      rw [hlog, foldFitsOf_append, foldFitsOf_append, foldFitsOf_cloned,
        foldFitsOf_fitFold_map, foldFitsOf_tail_ite, if_pos rfl]
      simp
    · rw [ih (st + 1) _ i (by omega) (by simp at h2 ⊢; omega)]
      rw [hlog, foldFitsOf_append, foldFitsOf_append, foldFitsOf_cloned,
        foldFitsOf_fitFold_map, foldFitsOf_tail_ite, if_neg (fun h => heq h.symm)]
      simp

/-! ### Path lemmas for `gridFit` and `stackingFit` -/

theorem gridFit_success (s : GridState α V) (proto : List (String × V) → Est α)
    (grid : List (String × List V)) (rows : List (α × ℚ)) (k seed : Nat)
    (h2 : 2 ≤ k) (hkn : k ≤ rows.length) :
    gridFit s proto grid rows k seed =
      (none,
        ((cartProd (grid.map Prod.snd)).enum.foldl
          (gridStep proto (grid.map Prod.fst) rows (kfoldSplitData rows k seed)) (s, []))) := by
  simp only [gridFit]
  rw [if_neg (by omega)]
  by_cases h : (cartProd (grid.map Prod.snd)).isEmpty
  · rw [if_pos h]
    have : cartProd (grid.map Prod.snd) = [] := List.isEmpty_iff.mp h
    rw [this]
    rfl
  · rw [if_neg h, if_neg (by omega)]

theorem gridFit_invalid_k (s : GridState α V) (proto : List (String × V) → Est α)
    (grid : List (String × List V)) (rows : List (α × ℚ)) (k seed : Nat) (h : k < 2) :
    gridFit s proto grid rows k seed = (some Err.invalidConfiguration, s, []) := by
  simp only [gridFit]
  rw [if_pos h]

theorem gridFit_invalid_n (s : GridState α V) (proto : List (String × V) → Est α)
    (grid : List (String × List V)) (rows : List (α × ℚ)) (k seed : Nat)
    (h2 : 2 ≤ k) (hne : cartProd (grid.map Prod.snd) ≠ []) (hn : rows.length < k) :
    gridFit s proto grid rows k seed =
      (some Err.invalidConfiguration, s, [Ev.cloned 0]) := by
  simp only [gridFit]
  rw [if_neg (by omega), if_neg (by simpa [List.isEmpty_iff] using hne), if_pos hn]

theorem stackingFit_success (ests : List (String × Est α)) (meta : Est (List ℚ))
    (rows : List (α × ℚ)) (k seed : Nat) (h2 : 2 ≤ k) (hkn : k ≤ rows.length)
    (hne : ests ≠ []) :
    stackingFit ests meta rows k seed =
      (none,
        ⟨some (ests.map (fun e => some (e.2.fit rows))),
          some (some (meta.fit
            ((metaRowsOf (stackMetaCols ests rows (kfoldSplitData rows k seed))
              rows.length).zip (rows.map Prod.snd))))⟩,
        ((List.range ests.length).map Ev.cloned) ++ (List.range ests.length).flatMap
          (fun i => (kfoldSplitData rows k seed).map (fun f => Ev.fitFold i f.1) ++
            [Ev.fitFull i])) := by
  simp only [stackingFit]
  rw [if_neg (by omega), if_neg (by simpa [List.isEmpty_iff] using hne), if_neg (by omega)]

theorem stackingFit_invalid (ests : List (String × Est α)) (meta : Est (List ℚ))
    (rows : List (α × ℚ)) (k seed : Nat)
    (h : k < 2 ∨ (ests ≠ [] ∧ rows.length < k)) :
    stackingFit ests meta rows k seed =
      (some Err.invalidConfiguration,
        ⟨some (ests.map (fun _ => none)), some none⟩,
        (List.range ests.length).map Ev.cloned) := by
  simp only [stackingFit]
  rcases h with h | ⟨hne, hn⟩
  · rw [if_pos h]
  · by_cases hk : k < 2
    · rw [if_pos hk]
    · rw [if_neg hk, if_neg (by simpa [List.isEmpty_iff] using hne), if_pos hn]

theorem stackingFit_empty (meta : Est (List ℚ)) (rows : List (α × ℚ)) (k seed : Nat)
    (h2 : 2 ≤ k) :
    stackingFit ([] : List (String × Est α)) meta rows k seed =
      (none,
        ⟨some [], some (some (meta.fit
          ((metaRowsOf [] rows.length).zip (rows.map Prod.snd))))⟩, []) := by
  simp only [stackingFit]
  rw [if_neg (by omega)]
  rfl

theorem seqOpt_map_some (l : List β) : seqOpt (l.map some) = some l := by
  induction l with
  | nil => rfl
  | cons b l ih => simp [seqOpt, ih]

theorem foldFitsOf_cloned_map (i : Nat) (is : List Nat) :
    foldFitsOf i (is.map Ev.cloned) = [] := by
  induction is with
  | nil => rfl
  | cons j is ih => simp [foldFitsOf, List.filterMap_cons] at ih ⊢

theorem foldFitsOf_chunks (i : Nat) (folds : List (List Nat × List Nat)) :
    ∀ (is : List Nat), is.Nodup →
      foldFitsOf i (is.flatMap
        (fun j => folds.map (fun f => Ev.fitFold j f.1) ++ [Ev.fitFull j])) =
        if i ∈ is then folds.map Prod.fst else [] := by
  intro is
  induction is with
  | nil => intro _; simp [foldFitsOf]
  | cons j is ih =>
    intro hnd
    rw [List.flatMap_cons, foldFitsOf_append, foldFitsOf_append,
      foldFitsOf_fitFold_map, ih (List.nodup_cons.mp hnd).2]
    have hsingle : foldFitsOf i [Ev.fitFull j] = [] := rfl
    rw [hsingle]
    by_cases hij : i = j
    · subst hij
      have hnotin : i ∉ is := (List.nodup_cons.mp hnd).1
      simp [hnotin]
    · have hji : ¬ j = i := fun h => hij h.symm
      by_cases hm : i ∈ is <;> simp [hji, hm, hij]

/-- Inside one stacking fit, the per-fold fits of every base estimator use
one and the same fold assignment, and each estimator also receives one
full-dataset fit by the same instance. -/
theorem stack_foldFits (ests : List (String × Est α)) (meta : Est (List ℚ))
    (rows : List (α × ℚ)) (k seed : Nat) (h2 : 2 ≤ k) (hkn : k ≤ rows.length)
    (i : Nat) (hi : i < ests.length) :
    foldFitsOf i (stackingFit ests meta rows k seed).2.2 =
      (kfoldSplitData rows k seed).map Prod.fst ∧
    Ev.fitFull i ∈ (stackingFit ests meta rows k seed).2.2 := by
  have hne : ests ≠ [] := by
    intro h
    rw [h] at hi
    simp at hi
  rw [stackingFit_success ests meta rows k seed h2 hkn hne]
  constructor
  · rw [foldFitsOf_append, foldFitsOf_cloned_map,
      foldFitsOf_chunks i _ _ (List.nodup_range _), if_pos (List.mem_range.mpr hi)]
    simp
  · refine List.mem_append.mpr (Or.inr ?_)
    refine List.mem_flatMap.mpr ⟨i, List.mem_range.mpr hi, ?_⟩
    exact List.mem_append.mpr (Or.inr (by simp))

theorem countP_cloned_chunks (folds : List (List Nat × List Nat)) :
    ∀ (is : List Nat),
      (is.flatMap (fun j => folds.map (fun f => Ev.fitFold j f.1) ++
        [Ev.fitFull j])).countP isClonedEv = 0 := by
  intro is
  apply List.countP_eq_zero.mpr
  intro a ha
  obtain ⟨j, _, hj⟩ := List.mem_flatMap.mp ha
  rcases List.mem_append.mp hj with hm | hm
  · obtain ⟨f, _, rfl⟩ := List.mem_map.mp hm
    simp [isClonedEv]
  · simp at hm
    rw [hm]
    simp [isClonedEv]

theorem countP_cloned_map_cloned (is : List Nat) :
    (is.map Ev.cloned).countP isClonedEv = is.length := by
  rw [List.countP_map]
  have : (isClonedEv ∘ Ev.cloned) = fun _ => true := by
    funext j
    rfl
  rw [this]
  simp [List.countP_true]

/-- The central fact behind the no-leakage invariant: for every row `r`
there is a fold whose validation block contains `r` and whose train block
excludes it, and the out-of-fold column holds, at position `r`, exactly the
prediction for row `r` of a model fitted on that train block. -/
theorem oofCol_spec (e : Est α) (rows : List (α × ℚ)) (k seed : Nat)
    (hk2 : 2 ≤ k) (r : Nat) (hr : r < rows.length) :
    ∃ f, f ∈ kfoldSplitData rows k seed ∧ r ∈ f.2 ∧ r ∉ f.1 ∧
      (oofCol e rows (kfoldSplitData rows k seed))[r]? =
        some (e.fit (subRows rows f.1) (rows.get ⟨r, hr⟩).1) := by
  have hk : 0 < k := by omega
  obtain ⟨pre, f, post, hdec, hrf, hpre, hpost⟩ :=
    kfoldSplit_cover rows.length k seed hk hr
  have hfolds : f ∈ kfoldSplitData rows k seed := by
    unfold kfoldSplitData
    rw [hdec]
    exact List.mem_append.mpr (Or.inr (List.mem_cons_self _ _))
  refine ⟨f, hfolds, hrf, ?_, ?_⟩
  · intro hrt
    exact ((mem_train_iff rows.length k seed hfolds r).mp hrt).2 hrf
  · unfold oofCol kfoldSplitData
    rw [show kfoldSplit rows.length k seed = pre ++ f :: post from hdec]
    rw [List.foldl_append, List.foldl_cons]
    have hlen : (pre.foldl (oofStep e rows) (List.replicate rows.length 0)).length
        = rows.length := by rw [oofFoldl_length, List.length_replicate]
    rw [oofFoldl_not_mem e rows post _ hpost]
    exact oofStep_at e rows _ f r
      (kfoldSplit_test_nodup rows.length k seed hk hfolds)
      (fun x hx => kfoldSplit_test_lt rows.length k seed hk hfolds hx)
      hlen hrf hr

/-! ### A fresh fit's best state -/

theorem enum_eq_enumFrom (l : List γ) : l.enum = List.enumFrom 0 l := rfl

/-- After a fit from the freshly-constructed state with a nonempty candidate
list, the stored best is the first candidate (in Cartesian-product
enumeration order) attaining the maximum mean cross-validated score. -/
theorem gridFit_fresh_best (proto : List (String × V) → Est α)
    (grid : List (String × List V)) (rows : List (α × ℚ)) (k seed : Nat)
    (h2 : 2 ≤ k) (hkn : k ≤ rows.length)
    (hne : cartProd (grid.map Prod.snd) ≠ []) :
    ∃ j cj, (cartProd (grid.map Prod.snd))[j]? = some cj ∧
      (gridFit GridState.init proto grid rows k seed).2.1 =
        bestStateOf proto (grid.map Prod.fst) rows (kfoldSplitData rows k seed) (j, cj) ∧
      (∀ (idx : Nat) (x : List V), (cartProd (grid.map Prod.snd))[idx]? = some x →
        comboScore proto (grid.map Prod.fst) rows (kfoldSplitData rows k seed) x ≤
          comboScore proto (grid.map Prod.fst) rows (kfoldSplitData rows k seed) cj ∧
        (idx < j → comboScore proto (grid.map Prod.fst) rows (kfoldSplitData rows k seed) x <
          comboScore proto (grid.map Prod.fst) rows (kfoldSplitData rows k seed) cj)) := by
  obtain ⟨c0, cs, hcs⟩ := List.exists_cons_of_ne_nil hne
  rw [gridFit_success _ _ _ _ _ _ h2 hkn, hcs]
  have henum : (c0 :: cs).enum = (0, c0) :: List.enumFrom 1 cs := rfl
  rw [henum]
  dsimp only
  rw [List.foldl_cons]
  have hstate := gridStep_state proto (grid.map Prod.fst) rows (kfoldSplitData rows k seed)
    (GridState.init, []) (0, c0)
  have hcond : bestLt ((GridState.init : GridState α V), ([] : List Ev)).1.best_score_
      (comboScore proto (grid.map Prod.fst) rows (kfoldSplitData rows k seed) (0, c0).2) =
      true := rfl
  rw [if_pos hcond] at hstate
  have hstep : gridStep proto (grid.map Prod.fst) rows (kfoldSplitData rows k seed)
      (GridState.init, []) (0, c0) =
      (bestStateOf proto (grid.map Prod.fst) rows (kfoldSplitData rows k seed) (0, c0),
        (gridStep proto (grid.map Prod.fst) rows (kfoldSplitData rows k seed)
          (GridState.init, []) (0, c0)).2) :=
    Prod.ext hstate rfl
  rw [hstep]
  obtain ⟨j, cj, hmem, hres, hle, hnei, hall⟩ :=
    grid_foldl_argmax proto (grid.map Prod.fst) rows (kfoldSplitData rows k seed)
      cs 1 _ 0 c0 (by omega)
  refine ⟨j, cj, ?_, hres, ?_⟩
  · rcases hmem with ⟨rfl, rfl⟩ | hm
    · exact List.getElem?_cons_zero
    · obtain ⟨h1, h2⟩ := List.mk_mem_enumFrom_iff_le_and_getElem?_sub.mp hm
      have hj : j = (j - 1) + 1 := by omega
      rw [hj, List.getElem?_cons_succ]
      exact h2
  · intro idx x hx
    cases idx with
    | zero =>
      have hx0 : x = c0 := by
        rw [List.getElem?_cons_zero] at hx
        injection hx.symm
      rw [hx0]
      refine ⟨hle, fun hj => hnei (by omega)⟩
    | succ idx =>
      rw [List.getElem?_cons_succ] at hx
      have hmem2 : (idx + 1, x) ∈ List.enumFrom 1 cs := by
        apply List.mk_mem_enumFrom_iff_le_and_getElem?_sub.mpr
        constructor
        · omega
        · simpa using hx
      exact hall (idx + 1, x) hmem2

/-! ### Concrete fixtures used by witnesses and counterexamples -/

/-- A stub estimator family: `set_params` configures a constant predictor
that always answers the configured parameter value (the first grid value, 0
when no parameter is set). -/
def cexProto : List (String × ℚ) → Est ℚ :=
  fun ps => ⟨fun _ => fun _ => (ps.head?.map Prod.snd).getD 0⟩

/-- A stub base estimator whose fitted model answers the sum of its train
labels — distinct train subsets give distinct predictions. -/
def cexBase : Est ℚ := ⟨fun tr => fun _ => (tr.map Prod.snd).sum⟩

/-- A stub meta-estimator: predict the first meta-feature. -/
def cexMeta : Est (List ℚ) := ⟨fun _ => fun r => r.headD 0⟩

def cexRows : List (ℚ × ℚ) := [(0, 7), (1, 7), (2, 7), (3, 7)]

def cexGrid : List (String × List ℚ) := [("t", [0, 7])]

def cexRows3 : List (ℚ × ℚ) := [(0, 1), (1, 0), (2, 1)]

/-! ### The claims -/

/-- C1 (stacking no-leakage invariant): for every dataset, every `k` with
`2 ≤ k ≤ n`, every seed, every row `r` and every base estimator `i`, the
entry `(r, i)` of the meta-feature matrix built during `fit` is the
prediction for row `r` of a model fitted on a fold train block that excludes
row `r`; the row lies in that fold's validation block and outside its train
block. -/
theorem claim_C1_no_leakage (ests : List (String × Est α))
    (rows : List (α × ℚ)) (k seed : Nat) (h2 : 2 ≤ k) (_hkn : k ≤ rows.length)
    (r i : Nat) (hr : r < rows.length) (e : String × Est α) (hi : ests[i]? = some e) :
    ∃ f, f ∈ kfoldSplitData rows k seed ∧ r ∈ f.2 ∧ r ∉ f.1 ∧
      ((stackMetaCols ests rows (kfoldSplitData rows k seed))[i]?.bind
        (fun col => col[r]?)) =
        some (e.2.fit (subRows rows f.1) (rows.get ⟨r, hr⟩).1) := by
  obtain ⟨f, hf, hrv, hrt, hval⟩ := oofCol_spec e.2 rows k seed h2 r hr
  refine ⟨f, hf, hrv, hrt, ?_⟩
  unfold stackMetaCols
  rw [List.getElem?_map, hi]
  simpa using hval

/-- Witness for C1: dataset of four rows, two folds, seed 0, one base
estimator; row 0's meta-feature is the sum-of-train-labels model's answer
for a train block avoiding row 0. -/
theorem claim_C1_witness :
    (2 ≤ 2 ∧ 2 ≤ (cexRows).length ∧ 0 < (cexRows).length ∧
      ([("b", cexBase)])[0]? = some ("b", cexBase)) ∧
    ∃ f, f ∈ kfoldSplitData cexRows 2 0 ∧ 0 ∈ f.2 ∧ 0 ∉ f.1 ∧
      ((stackMetaCols [("b", cexBase)] cexRows (kfoldSplitData cexRows 2 0))[0]?.bind
        (fun col => col[0]?)) =
        some (cexBase.fit (subRows cexRows f.1) (cexRows.get ⟨0, by decide⟩).1) :=
  ⟨⟨by decide, by decide, by decide, rfl⟩,
    claim_C1_no_leakage [("b", cexBase)] cexRows 2 0 (by decide) (by decide) 0 0
      (by decide) ("b", cexBase) rfl⟩

/-- C2 (grid-search optimality): after a successful fit, the stored best
score is at least the mean cross-validated score of every candidate in the
grid, each computed independently as the arithmetic mean of its per-fold
scorer values. -/
theorem claim_C2_optimality (s : GridState α V) (proto : List (String × V) → Est α)
    (grid : List (String × List V)) (rows : List (α × ℚ)) (k seed : Nat)
    (h2 : 2 ≤ k) (hkn : k ≤ rows.length) (c : List V)
    (hc : c ∈ cartProd (grid.map Prod.snd)) :
    ∃ b, (gridFit s proto grid rows k seed).2.1.best_score_ = some b ∧
      comboScore proto (grid.map Prod.fst) rows (kfoldSplitData rows k seed) c ≤ b := by
  rw [gridFit_success _ _ _ _ _ _ h2 hkn]
  obtain ⟨idx, hidx, hcx⟩ := List.getElem_of_mem hc
  have hmem : (idx, c) ∈ (cartProd (grid.map Prod.snd)).enum :=
    List.mk_mem_enum_iff_getElem?.mpr (by rw [List.getElem?_eq_getElem hidx, hcx])
  exact (grid_foldl_ge proto (grid.map Prod.fst) rows (kfoldSplitData rows k seed)
    (cartProd (grid.map Prod.snd)).enum (s, [])).2 (idx, c) hmem

/-- Witness for C2: the all-sevens dataset with the two-value grid; the
candidate predicting 0 scores below the stored best. -/
theorem claim_C2_witness :
    (2 ≤ 2 ∧ 2 ≤ cexRows.length ∧ [(0 : ℚ)] ∈ cartProd (cexGrid.map Prod.snd)) ∧
    ∃ b, (gridFit GridState.init cexProto cexGrid cexRows 2 0).2.1.best_score_ = some b ∧
      comboScore cexProto (cexGrid.map Prod.fst) cexRows
        (kfoldSplitData cexRows 2 0) [(0 : ℚ)] ≤ b :=
  ⟨⟨by decide, by decide, by decide⟩,
    claim_C2_optimality GridState.init cexProto cexGrid cexRows 2 0
      (by decide) (by decide) [(0 : ℚ)] (by decide)⟩

/-- C3 (first-wins tie-break): candidates are enumerated as the Cartesian
product of the grid's value sequences (`cartProd`, last-declared parameter
fastest); the running best is tracked with strict greater-than, so the fit
from a fresh state stores the candidate at the least enumeration index
attaining the maximum mean score: every candidate scores at most the stored
one and every earlier candidate scores strictly below it — on exact ties the
first-enumerated candidate is returned. -/
theorem claim_C3_first_wins (proto : List (String × V) → Est α)
    (grid : List (String × List V)) (rows : List (α × ℚ)) (k seed : Nat)
    (h2 : 2 ≤ k) (hkn : k ≤ rows.length)
    (hne : cartProd (grid.map Prod.snd) ≠ []) :
    ∃ j cj, (cartProd (grid.map Prod.snd))[j]? = some cj ∧
      (gridFit GridState.init proto grid rows k seed).2.1.best_params_ =
        some ((grid.map Prod.fst).zip cj) ∧
      (gridFit GridState.init proto grid rows k seed).2.1.best_score_ =
        some (comboScore proto (grid.map Prod.fst) rows (kfoldSplitData rows k seed) cj) ∧
      (∀ (idx : Nat) (x : List V), (cartProd (grid.map Prod.snd))[idx]? = some x →
        comboScore proto (grid.map Prod.fst) rows (kfoldSplitData rows k seed) x ≤
          comboScore proto (grid.map Prod.fst) rows (kfoldSplitData rows k seed) cj ∧
        (idx < j → comboScore proto (grid.map Prod.fst) rows (kfoldSplitData rows k seed) x <
          comboScore proto (grid.map Prod.fst) rows (kfoldSplitData rows k seed) cj)) := by
  obtain ⟨j, cj, hj, hres, hall⟩ :=
    gridFit_fresh_best proto grid rows k seed h2 hkn hne
  exact ⟨j, cj, hj, by rw [hres]; rfl, by rw [hres]; rfl, hall⟩

/-- Witness for C3: a grid whose two candidates score identically (both
predict the constant 5 on all-sevens labels); the theorem's conclusion then
forces the first candidate to be the stored one. -/
theorem claim_C3_witness :
    (2 ≤ 2 ∧ 2 ≤ cexRows.length ∧
      cartProd ((([("t", [(5 : ℚ), 5])]).map Prod.snd)) ≠ []) ∧
    ∃ j cj, (cartProd (([("t", [(5 : ℚ), 5])]).map Prod.snd))[j]? = some cj ∧
      (gridFit GridState.init cexProto [("t", [(5 : ℚ), 5])] cexRows 2 0).2.1.best_params_ =
        some ((([("t", [(5 : ℚ), 5])]).map Prod.fst).zip cj) ∧
      (gridFit GridState.init cexProto [("t", [(5 : ℚ), 5])] cexRows 2 0).2.1.best_score_ =
        some (comboScore cexProto (([("t", [(5 : ℚ), 5])]).map Prod.fst) cexRows
          (kfoldSplitData cexRows 2 0) cj) ∧
      (∀ (idx : Nat) (x : List ℚ),
        (cartProd (([("t", [(5 : ℚ), 5])]).map Prod.snd))[idx]? = some x →
        comboScore cexProto (([("t", [(5 : ℚ), 5])]).map Prod.fst) cexRows
          (kfoldSplitData cexRows 2 0) x ≤
          comboScore cexProto (([("t", [(5 : ℚ), 5])]).map Prod.fst) cexRows
            (kfoldSplitData cexRows 2 0) cj ∧
        (idx < j → comboScore cexProto (([("t", [(5 : ℚ), 5])]).map Prod.fst) cexRows
          (kfoldSplitData cexRows 2 0) x <
          comboScore cexProto (([("t", [(5 : ℚ), 5])]).map Prod.fst) cexRows
            (kfoldSplitData cexRows 2 0) cj)) :=
  ⟨⟨by decide, by decide, by decide⟩,
    claim_C3_first_wins cexProto [("t", [(5 : ℚ), 5])] cexRows 2 0
      (by decide) (by decide) (by decide)⟩

/-- C4 (determinism and shared fold assignment): the fold splitter output
depends only on the sample count, fold count, and seed — two datasets with
equal length produce identical fold assignments, and the splitter is a pure
function so repeated calls agree; and inside one stacking fit, every base
estimator's per-fold fits use that one shared fold assignment (the fold-fit
train sequence of every estimator equals the split's train blocks). -/
theorem claim_C4_determinism (rows rows' : List (α × ℚ)) (k seed : Nat)
    (hlen : rows.length = rows'.length)
    (ests : List (String × Est α)) (meta : Est (List ℚ))
    (h2 : 2 ≤ k) (hkn : k ≤ rows.length) (i : Nat) (hi : i < ests.length) :
    kfoldSplitData rows k seed = kfoldSplitData rows' k seed ∧
      foldFitsOf i (stackingFit ests meta rows k seed).2.2 =
        (kfoldSplitData rows k seed).map Prod.fst := by
  constructor
  · unfold kfoldSplitData
    rw [hlen]
  · exact (stack_foldFits ests meta rows k seed h2 hkn i hi).1

/-- Witness for C4: two different four-row datasets share the fold
assignment, and the single base estimator's fold fits follow it. -/
theorem claim_C4_witness :
    (cexRows.length = ([(9, 9), (8, 8), (7, 7), (6, 6)] : List (ℚ × ℚ)).length ∧
      2 ≤ 2 ∧ 2 ≤ cexRows.length ∧ 0 < ([("b", cexBase)]).length) ∧
    (kfoldSplitData cexRows 2 0 =
      kfoldSplitData ([(9, 9), (8, 8), (7, 7), (6, 6)] : List (ℚ × ℚ)) 2 0 ∧
      foldFitsOf 0 (stackingFit [("b", cexBase)] cexMeta cexRows 2 0).2.2 =
        (kfoldSplitData cexRows 2 0).map Prod.fst) :=
  ⟨⟨by decide, by decide, by decide, by decide⟩,
    claim_C4_determinism cexRows [(9, 9), (8, 8), (7, 7), (6, 6)] 2 0 (by decide)
      [("b", cexBase)] cexMeta (by decide) (by decide) 0 (by decide)⟩

/-- C5 counterexample: on the all-sevens dataset with grid `{t: [0, 7]}`,
one fit call performs two full-dataset fits (one per best update), the
first of them before the second candidate is even cloned, and the returned
best estimator is candidate 1's clone — the very instance that performed
candidate 1's per-fold fits.  This refutes "clone the prototype and fit it
exactly once, only after all candidates have been evaluated, as an instance
distinct from any per-fold fitted instance". -/
theorem claim_C5_counterexample :
    (gridFit GridState.init cexProto cexGrid cexRows 2 0).2.2.countP isFullFitEv = 2 ∧
    (gridFit GridState.init cexProto cexGrid cexRows 2 0).2.2[4]? =
      some (Ev.fitFull 0) ∧
    (gridFit GridState.init cexProto cexGrid cexRows 2 0).2.2[5]? =
      some (Ev.cloned 1) ∧
    (gridFit GridState.init cexProto cexGrid cexRows 2 0).2.1.best_estimator_.map
      Prod.fst = some 1 ∧
    foldFitsOf 1 (gridFit GridState.init cexProto cexGrid cexRows 2 0).2.2 =
      [[0, 1], [2, 3]] := by
  refine ⟨?_, ?_, ?_, ?_, ?_⟩ <;> with_unfolding_all decide

/-- C5 as amended: the candidate clone that wins is refit on the entire
dataset immediately at each update of the running best — the log holds
exactly one full-dataset fit per best update, not one overall — and, from a
fresh state, the stored best estimator is the winning candidate's clone,
the same instance that performed that candidate's per-fold fits (not a
distinct instance). -/
theorem claim_C5_amended (proto : List (String × V) → Est α)
    (grid : List (String × List V)) (rows : List (α × ℚ)) (k seed : Nat)
    (h2 : 2 ≤ k) (hkn : k ≤ rows.length) :
    ((gridFit GridState.init proto grid rows k seed).2.2.countP isFullFitEv =
      (gridFit GridState.init proto grid rows k seed).2.2.countP isBestSetEv) ∧
    (∀ (j : Nat) (f : α → ℚ),
      (gridFit GridState.init proto grid rows k seed).2.1.best_estimator_ = some (j, f) →
      foldFitsOf j (gridFit GridState.init proto grid rows k seed).2.2 =
        (kfoldSplitData rows k seed).map Prod.fst) := by
  constructor
  · rw [gridFit_success _ _ _ _ _ _ h2 hkn]
    exact grid_foldl_full_eq_bestSet proto (grid.map Prod.fst) rows
      (kfoldSplitData rows k seed) (cartProd (grid.map Prod.snd)).enum
      (GridState.init, []) rfl
  · intro j f hbe
    by_cases hne : cartProd (grid.map Prod.snd) = []
    · rw [gridFit_success _ _ _ _ _ _ h2 hkn, hne] at hbe
      simp [GridState.init] at hbe
    · obtain ⟨j2, cj, hj2, hres, hall⟩ :=
        gridFit_fresh_best proto grid rows k seed h2 hkn hne
      rw [hres] at hbe
      have hinj := Option.some.inj hbe
      have hjj : j2 = j := congrArg Prod.fst hinj
      have hlt : j2 < (cartProd (grid.map Prod.snd)).length := by
        by_contra hge
        rw [List.getElem?_eq_none (by omega)] at hj2
        exact Option.noConfusion hj2
      rw [gridFit_success _ _ _ _ _ _ h2 hkn, enum_eq_enumFrom,
        grid_foldl_foldFits proto (grid.map Prod.fst) rows (kfoldSplitData rows k seed)
          (cartProd (grid.map Prod.snd)) 0 (GridState.init, []) j (by omega) (by omega)]
      rfl

/-- Witness for C5 as amended, at the two-candidate fixture. -/
theorem claim_C5_witness :
    (2 ≤ 2 ∧ 2 ≤ cexRows.length) ∧
    (((gridFit GridState.init cexProto cexGrid cexRows 2 0).2.2.countP isFullFitEv =
      (gridFit GridState.init cexProto cexGrid cexRows 2 0).2.2.countP isBestSetEv) ∧
    (∀ (j : Nat) (f : ℚ → ℚ),
      (gridFit GridState.init cexProto cexGrid cexRows 2 0).2.1.best_estimator_ =
        some (j, f) →
      foldFitsOf j (gridFit GridState.init cexProto cexGrid cexRows 2 0).2.2 =
        (kfoldSplitData cexRows 2 0).map Prod.fst)) :=
  ⟨⟨by decide, by decide⟩,
    claim_C5_amended cexProto cexGrid cexRows 2 0 (by decide) (by decide)⟩

/-- C6 counterexample: in a stacking fit with one base estimator and two
folds, exactly one clone is created, both fold fits are performed by that
same instance (id 0), and that same instance receives the final full-dataset
fit and becomes the final base estimator; in a grid-search fit, two clones
serve two candidates with two fold fits each — never a fresh clone per fold.
This refutes "for every fold, the model fit on that fold's train rows is a
freshly created clone, discarded after use, never becoming the final
instance". -/
theorem claim_C6_counterexample :
    (stackingFit [("b", cexBase)] cexMeta cexRows 2 0).2.2.countP isClonedEv = 1 ∧
    foldFitsOf 0 (stackingFit [("b", cexBase)] cexMeta cexRows 2 0).2.2 =
      [[0, 1], [2, 3]] ∧
    Ev.fitFull 0 ∈ (stackingFit [("b", cexBase)] cexMeta cexRows 2 0).2.2 ∧
    (gridFit GridState.init cexProto cexGrid cexRows 2 0).2.2.countP isClonedEv = 2 ∧
    foldFitsOf 0 (gridFit GridState.init cexProto cexGrid cexRows 2 0).2.2 =
      [[0, 1], [2, 3]] := by
  refine ⟨?_, ?_, ?_, ?_, ?_⟩ <;> with_unfolding_all decide

/-- C6 as amended: each engine creates exactly one clone per candidate
(grid search) or per base estimator (stacking); that single instance is
refit on every fold's train rows in sequence; and in stacking the same
instance additionally receives the full-dataset fit, i.e. the fold-fitting
instance is the final base estimator. -/
theorem claim_C6_amended (proto : List (String × V) → Est α)
    (grid : List (String × List V)) (rows : List (α × ℚ)) (k seed : Nat)
    (ests : List (String × Est α)) (meta : Est (List ℚ))
    (h2 : 2 ≤ k) (hkn : k ≤ rows.length) :
    ((gridFit GridState.init proto grid rows k seed).2.2.countP isClonedEv =
      (cartProd (grid.map Prod.snd)).length) ∧
    (∀ i, i < (cartProd (grid.map Prod.snd)).length →
      foldFitsOf i (gridFit GridState.init proto grid rows k seed).2.2 =
        (kfoldSplitData rows k seed).map Prod.fst) ∧
    ((stackingFit ests meta rows k seed).2.2.countP isClonedEv = ests.length) ∧
    (∀ i, i < ests.length →
      foldFitsOf i (stackingFit ests meta rows k seed).2.2 =
        (kfoldSplitData rows k seed).map Prod.fst ∧
      Ev.fitFull i ∈ (stackingFit ests meta rows k seed).2.2) := by
  refine ⟨?_, ?_, ?_, ?_⟩
  · rw [gridFit_success _ _ _ _ _ _ h2 hkn, grid_foldl_cloned_count]
    simp [List.enum_length]
  · intro i hi
    rw [gridFit_success _ _ _ _ _ _ h2 hkn, enum_eq_enumFrom,
      grid_foldl_foldFits proto (grid.map Prod.fst) rows (kfoldSplitData rows k seed)
        (cartProd (grid.map Prod.snd)) 0 (GridState.init, []) i (by omega) (by omega)]
    rfl
  · by_cases hne : ests = []
    · subst hne
      rw [stackingFit_empty _ _ _ _ h2]
      rfl
    · rw [stackingFit_success _ _ _ _ _ h2 hkn hne, List.countP_append,
        countP_cloned_map_cloned, countP_cloned_chunks]
      simp
  · intro i hi
    exact stack_foldFits ests meta rows k seed h2 hkn i hi

/-- Witness for C6 as amended at the concrete fixtures. -/
theorem claim_C6_witness :
    (2 ≤ 2 ∧ 2 ≤ cexRows.length) ∧
    (((gridFit GridState.init cexProto cexGrid cexRows 2 0).2.2.countP isClonedEv =
      (cartProd (cexGrid.map Prod.snd)).length) ∧
    (∀ i, i < (cartProd (cexGrid.map Prod.snd)).length →
      foldFitsOf i (gridFit GridState.init cexProto cexGrid cexRows 2 0).2.2 =
        (kfoldSplitData cexRows 2 0).map Prod.fst) ∧
    ((stackingFit [("b", cexBase)] cexMeta cexRows 2 0).2.2.countP isClonedEv =
      ([("b", cexBase)]).length) ∧
    (∀ i, i < ([("b", cexBase)]).length →
      foldFitsOf i (stackingFit [("b", cexBase)] cexMeta cexRows 2 0).2.2 =
        (kfoldSplitData cexRows 2 0).map Prod.fst ∧
      Ev.fitFull i ∈ (stackingFit [("b", cexBase)] cexMeta cexRows 2 0).2.2)) :=
  ⟨⟨by decide, by decide⟩,
    claim_C6_amended cexProto cexGrid cexRows 2 0 [("b", cexBase)] cexMeta
      (by decide) (by decide)⟩

/-- Delegation of `stackPredict` once every stored clone is fitted. -/
theorem stackPredict_fitted (bs : List (α → ℚ)) (mf : List ℚ → ℚ) (xs : List α) :
    stackPredict ⟨some (bs.map some), some (some mf)⟩ xs =
      .ok ((metaRowsOf (bs.map (fun f => xs.map f)) xs.length).map mf) := by
  unfold stackPredict
  dsimp only
  rw [seqOpt_map_some]

/-- C7 (NotFitted on early use): on a freshly-constructed instance of either
engine, `predict` (and `score` for grid search) fails with the NotFitted
error instead of returning a value; after a successful `fit` (nonempty
search space / base-estimator list, valid fold count) the same calls succeed
and delegate to the stored final fitted estimator(s). -/
theorem claim_C7_not_fitted (xs : List α) (ys : List ℚ)
    (proto : List (String × V) → Est α) (grid : List (String × List V))
    (rows : List (α × ℚ)) (k seed : Nat)
    (h2 : 2 ≤ k) (hkn : k ≤ rows.length)
    (hgne : cartProd (grid.map Prod.snd) ≠ [])
    (ests : List (String × Est α)) (meta : Est (List ℚ)) (hene : ests ≠ []) :
    gridPredict (GridState.init (α := α) (V := V)) xs = .error .notFitted ∧
    gridScore (GridState.init (α := α) (V := V)) xs ys = .error .notFitted ∧
    stackPredict (StackState.init (α := α)) xs = .error .notFitted ∧
    (gridFit GridState.init proto grid rows k seed).1 = none ∧
    (∃ j f, (gridFit GridState.init proto grid rows k seed).2.1.best_estimator_ =
        some (j, f) ∧
      gridPredict (gridFit GridState.init proto grid rows k seed).2.1 xs =
        .ok (xs.map f) ∧
      gridScore (gridFit GridState.init proto grid rows k seed).2.1 xs ys =
        .ok (accuracy ys (xs.map f))) ∧
    (stackingFit ests meta rows k seed).1 = none ∧
    stackPredict (stackingFit ests meta rows k seed).2.1 xs =
      .ok ((metaRowsOf ((ests.map (fun e => e.2.fit rows)).map (fun f => xs.map f))
        xs.length).map (meta.fit
          ((metaRowsOf (stackMetaCols ests rows (kfoldSplitData rows k seed))
            rows.length).zip (rows.map Prod.snd)))) := by
  refine ⟨rfl, rfl, rfl, ?_, ?_, ?_, ?_⟩
  · rw [gridFit_success _ _ _ _ _ _ h2 hkn]
  · obtain ⟨j, cj, hj, hres, hall⟩ :=
      gridFit_fresh_best proto grid rows k seed h2 hkn hgne
    refine ⟨j, (proto ((grid.map Prod.fst).zip cj)).fit rows, ?_, ?_, ?_⟩
    · rw [hres]
      rfl
    · rw [hres]
      rfl
    · rw [hres]
      rfl
  · rw [stackingFit_success _ _ _ _ _ h2 hkn hene]
  · rw [stackingFit_success _ _ _ _ _ h2 hkn hene]
    have hb : ests.map (fun e => some (e.2.fit rows)) =
        (ests.map (fun e => e.2.fit rows)).map some := by
      rw [List.map_map]
      rfl
    dsimp only
    rw [hb]
    exact stackPredict_fitted (ests.map (fun e => e.2.fit rows)) _ xs

/-- Witness for C7 at the concrete fixtures. -/
theorem claim_C7_witness :
    (2 ≤ 2 ∧ 2 ≤ cexRows.length ∧ cartProd (cexGrid.map Prod.snd) ≠ [] ∧
      ([("b", cexBase)] : List (String × Est ℚ)) ≠ []) ∧
    (gridPredict (GridState.init (α := ℚ) (V := ℚ)) [9] = .error .notFitted ∧
    gridScore (GridState.init (α := ℚ) (V := ℚ)) [9] [7] = .error .notFitted ∧
    stackPredict (StackState.init (α := ℚ)) [9] = .error .notFitted ∧
    (gridFit GridState.init cexProto cexGrid cexRows 2 0).1 = none ∧
    (∃ j f, (gridFit GridState.init cexProto cexGrid cexRows 2 0).2.1.best_estimator_ =
        some (j, f) ∧
      gridPredict (gridFit GridState.init cexProto cexGrid cexRows 2 0).2.1 [9] =
        .ok ([9].map f) ∧
      gridScore (gridFit GridState.init cexProto cexGrid cexRows 2 0).2.1 [9] [7] =
        .ok (accuracy [7] ([9].map f))) ∧
    (stackingFit [("b", cexBase)] cexMeta cexRows 2 0).1 = none ∧
    stackPredict (stackingFit [("b", cexBase)] cexMeta cexRows 2 0).2.1 [9] =
      .ok ((metaRowsOf ((([("b", cexBase)]).map (fun e => e.2.fit cexRows)).map
        (fun f => [9].map f)) ([(9 : ℚ)]).length).map (cexMeta.fit
          ((metaRowsOf (stackMetaCols [("b", cexBase)] cexRows
            (kfoldSplitData cexRows 2 0)) cexRows.length).zip
            (cexRows.map Prod.snd))))) :=
  ⟨⟨by decide, by decide, by decide, List.cons_ne_nil _ _⟩,
    claim_C7_not_fitted [9] [7] cexProto cexGrid cexRows 2 0 (by decide) (by decide)
      (by decide) [("b", cexBase)] cexMeta (List.cons_ne_nil _ _)⟩

/-- C8 counterexample: on `n = 3` rows with `k = 5`, the stacking fit fails
with `InvalidConfiguration` but `base_estimators_` and `final_estimator_`
have already been overwritten (they are no longer `none`, their unfit
initial state) — partial state is created, refuting the claim for the
stacking engine. -/
theorem claim_C8_counterexample :
    (stackingFit [("b", cexBase)] cexMeta cexRows3 5 0).1 =
      some Err.invalidConfiguration ∧
    (stackingFit [("b", cexBase)] cexMeta cexRows3 5 0).2.1.base_estimators_.isSome =
      true ∧
    (stackingFit [("b", cexBase)] cexMeta cexRows3 5 0).2.1.final_estimator_.isSome =
      true :=
  ⟨rfl, rfl, rfl⟩

/-- C8 as amended: for `k < 2`, or `k > n` with a nonempty candidate list
and base-estimator list (the splitter is only invoked inside the loops),
fit of either engine fails with `InvalidConfiguration`; the grid-search
instance's fitted-state fields stay exactly as they were, but the stacking
instance assigns unfitted clones to `base_estimators_` and
`final_estimator_` before the failure, so its fields do not remain in their
unfit initial `None` state. -/
theorem claim_C8_amended (s : GridState α V) (proto : List (String × V) → Est α)
    (grid : List (String × List V)) (rows : List (α × ℚ)) (k seed : Nat)
    (ests : List (String × Est α)) (meta : Est (List ℚ))
    (h : k < 2 ∨ (rows.length < k ∧ cartProd (grid.map Prod.snd) ≠ [] ∧ ests ≠ [])) :
    (gridFit s proto grid rows k seed).1 = some Err.invalidConfiguration ∧
    (gridFit s proto grid rows k seed).2.1 = s ∧
    (stackingFit ests meta rows k seed).1 = some Err.invalidConfiguration ∧
    (stackingFit ests meta rows k seed).2.1.base_estimators_ =
      some (ests.map (fun _ => none)) ∧
    (stackingFit ests meta rows k seed).2.1.final_estimator_ = some none := by
  rcases h with hk | ⟨hn, hg, he⟩
  · rw [gridFit_invalid_k _ _ _ _ _ _ hk, stackingFit_invalid _ _ _ _ _ (Or.inl hk)]
    exact ⟨rfl, rfl, rfl, rfl, rfl⟩
  · by_cases hk2 : k < 2
    · rw [gridFit_invalid_k _ _ _ _ _ _ hk2,
        stackingFit_invalid _ _ _ _ _ (Or.inl hk2)]
      exact ⟨rfl, rfl, rfl, rfl, rfl⟩
    · rw [gridFit_invalid_n _ _ _ _ _ _ (by omega) hg hn,
        stackingFit_invalid _ _ _ _ _ (Or.inr ⟨he, hn⟩)]
      exact ⟨rfl, rfl, rfl, rfl, rfl⟩

/-- Witness for C8 as amended: `n = 3, k = 5`. -/
theorem claim_C8_witness :
    (5 < 2 ∨ (cexRows3.length < 5 ∧ cartProd (cexGrid.map Prod.snd) ≠ [] ∧
      ([("b", cexBase)] : List (String × Est ℚ)) ≠ [])) ∧
    ((gridFit GridState.init cexProto cexGrid cexRows3 5 0).1 =
      some Err.invalidConfiguration ∧
    (gridFit GridState.init cexProto cexGrid cexRows3 5 0).2.1 = GridState.init ∧
    (stackingFit [("b", cexBase)] cexMeta cexRows3 5 0).1 =
      some Err.invalidConfiguration ∧
    (stackingFit [("b", cexBase)] cexMeta cexRows3 5 0).2.1.base_estimators_ =
      some (([("b", cexBase)]).map (fun _ => none)) ∧
    (stackingFit [("b", cexBase)] cexMeta cexRows3 5 0).2.1.final_estimator_ =
      some none) :=
  ⟨Or.inr ⟨by decide, by decide, List.cons_ne_nil _ _⟩,
    claim_C8_amended GridState.init cexProto cexGrid cexRows3 5 0
      [("b", cexBase)] cexMeta
      (Or.inr ⟨by decide, by decide, List.cons_ne_nil _ _⟩)⟩

/-- C9 counterexample: fitting with an empty hyperparameter grid does not
fail — the fit returns no error and stores the single empty-parameter
candidate as the best (`best_params_ = some []`), refuting "fails with
InvalidConfiguration, detected before any estimator fitting starts". -/
theorem claim_C9_counterexample :
    (gridFit (GridState.init (α := ℚ) (V := ℚ)) cexProto [] cexRows 2 0).1 = none ∧
    (gridFit (GridState.init (α := ℚ) (V := ℚ)) cexProto [] cexRows 2 0).2.1.best_params_ =
      some [] := by
  refine ⟨?_, ?_⟩ <;> with_unfolding_all decide

/-- C9 as amended: neither engine validates an empty search space.  An empty
grid yields, through the Cartesian product, exactly one candidate with no
parameters; fit succeeds, clones once, and stores that candidate as best.
An empty base-estimator list makes the stacking fit skip the estimator loop
entirely and fit the meta-estimator on an `n × 0` meta-feature matrix;
it succeeds whenever `2 ≤ k` (even for `k > n`, since the splitter is never
invoked). -/
theorem claim_C9_amended (proto : List (String × V) → Est α) (rows : List (α × ℚ))
    (k seed : Nat) (h2 : 2 ≤ k) (hkn : k ≤ rows.length)
    (meta : Est (List ℚ)) (rows2 : List (α × ℚ)) (k2 seed2 : Nat) (h22 : 2 ≤ k2) :
    cartProd ((([] : List (String × List V)).map Prod.snd)) = [[]] ∧
    (gridFit GridState.init proto [] rows k seed).1 = none ∧
    (gridFit GridState.init proto [] rows k seed).2.1.best_params_ =
      some [] ∧
    (gridFit GridState.init proto [] rows k seed).2.2.countP isClonedEv = 1 ∧
    (stackingFit ([] : List (String × Est α)) meta rows2 k2 seed2).1 = none ∧
    (stackingFit ([] : List (String × Est α)) meta rows2 k2 seed2).2.1.final_estimator_ =
      some (some (meta.fit ((metaRowsOf [] rows2.length).zip (rows2.map Prod.snd)))) := by
  obtain ⟨j, cj, hj, hres, hall⟩ :=
    gridFit_fresh_best proto [] rows k seed h2 hkn (by simp [cartProd])
  have hcj : cj = [] := by
    cases j with
    | zero =>
      rw [show (cartProd (([] : List (String × List V)).map Prod.snd)) = [[]] from rfl,
        List.getElem?_cons_zero] at hj
      exact (Option.some.inj hj).symm
    | succ j =>
      rw [show (cartProd (([] : List (String × List V)).map Prod.snd)) = [[]] from rfl,
        List.getElem?_cons_succ] at hj
      simp at hj
  refine ⟨rfl, ?_, ?_, ?_, ?_, ?_⟩
  · rw [gridFit_success _ _ _ _ _ _ h2 hkn]
  · rw [hres, hcj]
    rfl
  · rw [gridFit_success _ _ _ _ _ _ h2 hkn, grid_foldl_cloned_count]
    rfl
  · rw [stackingFit_empty _ _ _ _ h22]
  · rw [stackingFit_empty _ _ _ _ h22]

/-- Witness for C9 as amended. -/
theorem claim_C9_witness :
    (2 ≤ 2 ∧ 2 ≤ cexRows.length ∧ 2 ≤ 5) ∧
    (cartProd ((([] : List (String × List ℚ)).map Prod.snd)) = [[]] ∧
    (gridFit GridState.init cexProto [] cexRows 2 0).1 = none ∧
    (gridFit GridState.init cexProto [] cexRows 2 0).2.1.best_params_ = some [] ∧
    (gridFit GridState.init cexProto [] cexRows 2 0).2.2.countP isClonedEv = 1 ∧
    (stackingFit ([] : List (String × Est ℚ)) cexMeta cexRows3 5 0).1 = none ∧
    (stackingFit ([] : List (String × Est ℚ)) cexMeta cexRows3 5 0).2.1.final_estimator_ =
      some (some (cexMeta.fit ((metaRowsOf [] cexRows3.length).zip
        (cexRows3.map Prod.snd))))) :=
  ⟨⟨by decide, by decide, by decide⟩,
    claim_C9_amended cexProto cexRows 2 0 (by decide) (by decide) cexMeta cexRows3 5 0
      (by decide)⟩

/-- C10 (implicit: no reset between fit calls): the best-candidate fields
are initialized only in the constructor; a fit from any starting state —
such as the state left by an earlier fit, on any dataset — leaves
`best_estimator_`, `best_params_` and `best_score_` exactly as they were
unless some candidate's mean score strictly exceeds the carried-over best
score, and conversely any change implies such a candidate exists. -/
theorem claim_C10_carryover (s : GridState α V) (proto : List (String × V) → Est α)
    (grid : List (String × List V)) (rows : List (α × ℚ)) (k seed : Nat)
    (h2 : 2 ≤ k) (hkn : k ≤ rows.length) :
    ((∀ c ∈ cartProd (grid.map Prod.snd),
        bestLt s.best_score_
          (comboScore proto (grid.map Prod.fst) rows (kfoldSplitData rows k seed) c) =
          false) →
      (gridFit s proto grid rows k seed).2.1 = s) ∧
    ((gridFit s proto grid rows k seed).2.1 ≠ s →
      ∃ c ∈ cartProd (grid.map Prod.snd),
        bestLt s.best_score_
          (comboScore proto (grid.map Prod.fst) rows (kfoldSplitData rows k seed) c) =
          true) := by
  have hmain : (∀ c ∈ cartProd (grid.map Prod.snd),
      bestLt s.best_score_
        (comboScore proto (grid.map Prod.fst) rows (kfoldSplitData rows k seed) c) =
        false) →
      (gridFit s proto grid rows k seed).2.1 = s := by
    intro h
    rw [gridFit_success _ _ _ _ _ _ h2 hkn]
    apply grid_foldl_stale
    intro ci hci
    have hmm : ci.2 ∈ cartProd (grid.map Prod.snd) := by
      obtain ⟨i, x⟩ := ci
      have hg := List.mk_mem_enum_iff_getElem?.mp hci
      exact List.getElem?_mem hg
    exact h ci.2 hmm
  refine ⟨hmain, ?_⟩
  intro hne
  by_contra hex
  push_neg at hex
  refine hne (hmain (fun c hc => ?_))
  exact eq_false_of_ne_true (hex c hc)

/-- Witness for C10: a carried-over best score of 2 beats every accuracy
(at most 1), so a second fit on the all-sevens dataset returns the stale
best state unchanged. -/
theorem claim_C10_witness :
    (2 ≤ 2 ∧ 2 ≤ cexRows.length) ∧
    (((∀ c ∈ cartProd (cexGrid.map Prod.snd),
        bestLt (some 2)
          (comboScore cexProto (cexGrid.map Prod.fst) cexRows
            (kfoldSplitData cexRows 2 0) c) = false) →
      (gridFit ⟨some (5, fun _ => 0), some [("t", 9)], some 2⟩ cexProto cexGrid
        cexRows 2 0).2.1 = ⟨some (5, fun _ => 0), some [("t", 9)], some 2⟩) ∧
    ((gridFit ⟨some (5, fun _ => 0), some [("t", 9)], some 2⟩ cexProto cexGrid
        cexRows 2 0).2.1 ≠ ⟨some (5, fun _ => 0), some [("t", 9)], some 2⟩ →
      ∃ c ∈ cartProd (cexGrid.map Prod.snd),
        bestLt (some 2)
          (comboScore cexProto (cexGrid.map Prod.fst) cexRows
            (kfoldSplitData cexRows 2 0) c) = true)) :=
  ⟨⟨by decide, by decide⟩,
    claim_C10_carryover ⟨some (5, fun _ => 0), some [("t", 9)], some 2⟩ cexProto
      cexGrid cexRows 2 0 (by decide) (by decide)⟩

end CodeKata
